import Mathlib

/-!
# Verification of the Functionless ASL lowering engine

A shallow embedding of `packages/@functionless/asl/src/asl.ts` (the Amazon
States Language lowering engine) together with proofs about the claims of the
specification.  Each definition carries a reference to the source function it
embeds.  Helper modules of the repository that are not part of the provided
sources (`asl-graph.ts`, `states.ts`, `guards.ts`, `@functionless/ast`,
`@functionless/error-code`) are modelled from the specification where needed;
those definitions say so in their doc comments.

JavaScript numbers are modelled as integers (`Int`); `NaN` is modelled as the
JSON `null` value, which is exactly how the compiler itself represents `NaN`
("Treat NaN as Null as we do not support special symbols").
-/

/-- A JSON value as stored in ASL `Result` / `Parameters` fields and literal
outputs.  Numbers are modelled as integers. -/
inductive JsonVal where
  | null : JsonVal
  | bool (b : Bool) : JsonVal
  | num (n : Int) : JsonVal
  | str (s : String) : JsonVal
  | arr (items : List JsonVal) : JsonVal
  | obj (fields : List (String × JsonVal)) : JsonVal

/-- Little-endian decimal digits of a natural number, driven by fuel so that
the definition reduces by kernel computation (any `fuel ≥ n` is exact, see
`digitsFuel_eq_digits`). -/
def digitsFuel : Nat → Nat → List Nat
  | 0, _ => []
  | fuel + 1, n => if n = 0 then [] else n % 10 :: digitsFuel fuel (n / 10)

/-- Decimal rendering of a natural number (the standard decimal numeral). -/
def natToString (n : Nat) : String :=
  if n = 0 then "0"
  else (((digitsFuel (n + 1) n).reverse.map (fun d => Char.ofNat (48 + d))).asString)

/-- Decimal rendering of an integer. -/
def intToString (n : Int) : String :=
  if n < 0 then "-" ++ natToString n.natAbs else natToString n.natAbs

mutual

/-- JavaScript `String(value)` conversion on the modelled value space
(`String(null) = "null"`, arrays join their elements with commas and render
`null` elements as the empty string, objects render as `[object Object]`). -/
def jsToString : JsonVal → String
  | .null => "null"
  | .bool b => if b then "true" else "false"
  | .num n => intToString n
  | .str s => s
  | .arr items => String.intercalate "," (jsToStringElems items)
  | .obj _ => "[object Object]"

/-- Array elements under `Array.prototype.join`: `null` renders empty. -/
def jsToStringElems : List JsonVal → List String
  | [] => []
  | .null :: vs => "" :: jsToStringElems vs
  | v :: vs => jsToString v :: jsToStringElems vs

end

/-- JavaScript `Number(value)` conversion on the modelled value space; `none`
stands for `NaN`.  String parsing accepts optionally signed decimal numerals
(the empty string converts to `0`); arrays and objects convert to `NaN` in
this model. -/
def jsToNumber : JsonVal → Option Int
  | .null => some 0
  | .bool b => some (if b then 1 else 0)
  | .num n => some n
  | .str s =>
    if s = "" then some 0
    else if s.front = '-' then ((s.drop 1).toNat?).map (fun n => -(n : Int))
    else (s.toNat?).map (fun n => (n : Int))
  | .arr _ => none
  | .obj _ => none

/-- The backslash character. -/
def backslashChar : Char := Char.ofNat 92

/-- The double-quote character. -/
def dquoteChar : Char := Char.ofNat 34

/-- The single-quote character. -/
def squoteChar : Char := Char.ofNat 39

def jsonEscapeChars : List Char → List Char
  | [] => []
  | c :: cs =>
    if c = backslashChar then backslashChar :: backslashChar :: jsonEscapeChars cs
    else if c = dquoteChar then backslashChar :: dquoteChar :: jsonEscapeChars cs
    else c :: jsonEscapeChars cs

/-- Escape a string for embedding in a JSON document (`JSON.stringify`
escaping restricted to backslash and double quote, which covers the literal
strings produced by the compiler). -/
def jsonEscape (s : String) : String :=
  (jsonEscapeChars s.data).asString

mutual

/-- `JSON.stringify` on the modelled value space. -/
def jsonStringify : JsonVal → String
  | .null => "null"
  | .bool b => if b then "true" else "false"
  | .num n => intToString n
  | .str s => "\"" ++ jsonEscape s ++ "\""
  | .arr items => "[" ++ String.intercalate "," (jsonStringifyList items) ++ "]"
  | .obj fields =>
    "\x7b" ++ String.intercalate "," (jsonStringifyFields fields) ++ "\x7d"

def jsonStringifyList : List JsonVal → List String
  | [] => []
  | v :: vs => jsonStringify v :: jsonStringifyList vs

def jsonStringifyFields : List (String × JsonVal) → List String
  | [] => []
  | (k, v) :: fs =>
    ("\"" ++ jsonEscape k ++ "\":" ++ jsonStringify v) :: jsonStringifyFields fs

end

/-!
## The state-name allocator (claim C8)

`ASL.createUniqueStateName` (asl.ts:363-367) truncates the requested name to
75 characters and delegates to a `UniqueNameGenerator` instantiated with the
formatter `(name, n) => name + " " + n` (asl.ts:165-167).  The generator class
itself lives in `@functionless/ast`, which is not under `src/`; it is modelled
from the spec below.
-/

/-- The decimal digit characters used by `natToString`. -/
def decDigitChar (d : Nat) : Char := Char.ofNat (48 + d)

/-- With sufficient fuel, `digitsFuel` computes `Nat.digits 10`. -/
theorem digitsFuel_eq_digits : ∀ (fuel n : Nat), n ≤ fuel →
    digitsFuel fuel n = Nat.digits 10 n := by
  intro fuel
  induction fuel with
  | zero =>
    intro n hn
    interval_cases n
    simp [digitsFuel]
  | succ fuel ih =>
    intro n hn
    by_cases h0 : n = 0
    · simp [digitsFuel, h0]
    · have hdiv : n / 10 ≤ fuel := by
        have := Nat.div_lt_self (Nat.pos_of_ne_zero h0) (by norm_num : (1:Nat) < 10)
        omega
      rw [digitsFuel, if_neg h0, ih (n / 10) hdiv,
        Nat.digits_def' (by norm_num : (1:Nat) < 10) (Nat.pos_of_ne_zero h0)]

/-- `decDigitChar` is injective on decimal digits. -/
theorem decDigitChar_injOn : ∀ d₁ < 10, ∀ d₂ < 10,
    decDigitChar d₁ = decDigitChar d₂ → d₁ = d₂ := by decide

theorem map_decDigitChar_inj : ∀ l₁ l₂ : List Nat,
    (∀ d ∈ l₁, d < 10) → (∀ d ∈ l₂, d < 10) →
    l₁.map decDigitChar = l₂.map decDigitChar → l₁ = l₂ := by
  intro l₁
  induction l₁ with
  | nil => intro l₂ _ _ h; cases l₂ <;> simp_all
  | cons d₁ t₁ ih =>
    intro l₂ h₁ h₂ h
    cases l₂ with
    | nil => simp_all
    | cons d₂ t₂ =>
      simp only [List.map_cons, List.cons.injEq] at h
      have hd : d₁ = d₂ :=
        decDigitChar_injOn d₁ (h₁ d₁ (by simp)) d₂ (h₂ d₂ (by simp)) h.1
      have ht : t₁ = t₂ :=
        ih t₂ (fun d hd => h₁ d (by simp [hd])) (fun d hd => h₂ d (by simp [hd])) h.2
      rw [hd, ht]

/-- `natToString` on a nonzero number agrees with the decimal rendering of
`Nat.digits 10`. -/
theorem natToString_eq_digits {n : Nat} (hn : n ≠ 0) :
    natToString n = ((Nat.digits 10 n).reverse.map decDigitChar).asString := by
  rw [natToString, if_neg hn, digitsFuel_eq_digits (n + 1) n (Nat.le_succ n)]
  rfl

theorem natToString_ne_zero_string {n : Nat} (hn : n ≠ 0) : natToString n ≠ "0" := by
  intro h
  have hdig : ((Nat.digits 10 n).reverse.map decDigitChar) = ['0'] := by
    have := congrArg String.data ((natToString_eq_digits hn).symm.trans h)
    simpa [List.asString] using this
  rcases hrev : (Nat.digits 10 n).reverse with _ | ⟨d, t⟩
  · simp [hrev] at hdig
  · rw [hrev] at hdig
    simp only [List.map_cons, List.cons.injEq, List.map_eq_nil_iff] at hdig
    have ht : t = [] := hdig.2
    have hd10 : d < 10 := by
      have : d ∈ Nat.digits 10 n := by
        have : d ∈ (Nat.digits 10 n).reverse := by rw [hrev]; simp
        simpa using this
      exact Nat.digits_lt_base (by norm_num) this
    have hd0 : d = 0 := by
      have : decDigitChar d = decDigitChar 0 := by
        simpa [decDigitChar] using hdig.1
      exact decDigitChar_injOn d hd10 0 (by norm_num) this
    have hdigits : Nat.digits 10 n = [0] := by
      have := congrArg List.reverse hrev
      simpa [ht, hd0] using this
    have : n = 0 := by
      have h0 := Nat.ofDigits_digits 10 n
      rw [hdigits] at h0
      simpa [Nat.ofDigits] using h0.symm
    exact hn this

/-- Decimal rendering of naturals is injective. -/
theorem natToString_injective : Function.Injective natToString := by
  intro m n h
  by_cases hm : m = 0 <;> by_cases hn : n = 0
  · rw [hm, hn]
  · exact absurd (by simpa [natToString, hm] using h.symm) (natToString_ne_zero_string hn)
  · exact absurd (by simpa [natToString, hn] using h) (natToString_ne_zero_string hm)
  · have h' := (natToString_eq_digits hm).symm.trans (h.trans (natToString_eq_digits hn))
    have hdata := congrArg String.data h'
    simp only [List.asString] at hdata
    have hmap := map_decDigitChar_inj
      (Nat.digits 10 m).reverse (Nat.digits 10 n).reverse
      (fun d hd => Nat.digits_lt_base (by norm_num) (by simpa using hd))
      (fun d hd => Nat.digits_lt_base (by norm_num) (by simpa using hd))
      hdata
    have hdig : Nat.digits 10 m = Nat.digits 10 n :=
      List.reverse_injective hmap
    calc m = Nat.ofDigits 10 (Nat.digits 10 m) := (Nat.ofDigits_digits 10 m).symm
    _ = Nat.ofDigits 10 (Nat.digits 10 n) := by rw [hdig]
    _ = n := Nat.ofDigits_digits 10 n

/-- The suffix formatter passed by `asl.ts` to its state-name generator
(asl.ts:165-167): `(name, n) => name + " " + n`. -/
def stateNameFmt (name : String) (n : Nat) : String :=
  name ++ " " ++ natToString n

theorem string_append_cancel_left {s t₁ t₂ : String} (h : s ++ t₁ = s ++ t₂) :
    t₁ = t₂ := by
  have hd : (s ++ t₁).data = (s ++ t₂).data := congrArg String.data h
  rw [String.data_append, String.data_append] at hd
  exact String.ext (List.append_cancel_left hd)

/-- For a fixed base name, the formatted suffixed names are injective in the
suffix number. -/
theorem stateNameFmt_injOn (name : String) {n₁ n₂ : Nat}
    (h : stateNameFmt name n₁ = stateNameFmt name n₂) : n₁ = n₂ := by
  unfold stateNameFmt at h
  rw [String.append_assoc, String.append_assoc] at h
  exact natToString_injective (string_append_cancel_left (string_append_cancel_left h))

/-- Bounded search for the first free suffix number starting at `n`. -/
def firstFreeAux (used : List String) (name : String) : Nat → Nat → Nat
  | 0, n => n
  | fuel + 1, n =>
    if stateNameFmt name n ∈ used then firstFreeAux used name fuel (n + 1) else n

/-- The smallest `n ≥ 1` such that `stateNameFmt name n` is not yet used
(the fuel `used.length + 1` always suffices, see `firstFree_spec`). -/
def firstFree (used : List String) (name : String) : Nat :=
  firstFreeAux used name (used.length + 1) 1

theorem firstFreeAux_spec (used : List String) (name : String) :
    ∀ (fuel n : Nat), (∃ k, n ≤ k ∧ k < n + fuel ∧ stateNameFmt name k ∉ used) →
    (stateNameFmt name (firstFreeAux used name fuel n) ∉ used ∧
     n ≤ firstFreeAux used name fuel n ∧
     ∀ m, n ≤ m → m < firstFreeAux used name fuel n → stateNameFmt name m ∈ used) := by
  intro fuel
  induction fuel with
  | zero =>
    intro n ⟨k, hk₁, hk₂, _⟩
    omega
  | succ fuel ih =>
    intro n ⟨k, hk₁, hk₂, hk₃⟩
    by_cases hmem : stateNameFmt name n ∈ used
    · have hkn : n + 1 ≤ k := by
        rcases Nat.eq_or_lt_of_le hk₁ with h | h
        · exact absurd (h ▸ hmem) hk₃
        · exact h
      have := ih (n + 1) ⟨k, hkn, by omega, hk₃⟩
      refine ⟨by simpa [firstFreeAux, hmem] using this.1,
              by simp only [firstFreeAux, if_pos hmem]; omega, ?_⟩
      intro m hm₁ hm₂
      simp only [firstFreeAux, if_pos hmem] at hm₂
      rcases Nat.eq_or_lt_of_le hm₁ with h | h
      · exact h ▸ hmem
      · exact this.2.2 m h hm₂
    · exact ⟨by simp [firstFreeAux, hmem], by simp [firstFreeAux, hmem], by
        intro m hm₁ hm₂
        simp only [firstFreeAux, if_neg hmem] at hm₂
        omega⟩

/-- Some suffix in `[1, used.length + 1]` is always free: the formatted names
are pairwise distinct, so they cannot all lie in `used`. -/
theorem exists_free_suffix (used : List String) (name : String) :
    ∃ k, 1 ≤ k ∧ k < 1 + (used.length + 1) ∧ stateNameFmt name k ∉ used := by
  by_contra hcon
  push_neg at hcon
  have hall : ∀ k ∈ Finset.range (used.length + 1),
      stateNameFmt name (k + 1) ∈ used := by
    intro k hk
    have hk' := Finset.mem_range.mp hk
    exact hcon (k + 1) (by omega) (by omega)
  have hinj : Function.Injective (fun k => stateNameFmt name (k + 1)) := by
    intro a b h
    have := stateNameFmt_injOn name h
    omega
  have hsub : (Finset.range (used.length + 1)).image (fun k => stateNameFmt name (k + 1)) ⊆
      used.toFinset := by
    intro x hx
    rcases Finset.mem_image.mp hx with ⟨k, hk, rfl⟩
    exact List.mem_toFinset.mpr (hall k hk)
  have hcard := Finset.card_le_card hsub
  rw [Finset.card_image_of_injective _ hinj, Finset.card_range] at hcard
  have := List.toFinset_card_le used
  omega

theorem firstFree_spec (used : List String) (name : String) :
    stateNameFmt name (firstFree used name) ∉ used ∧
    1 ≤ firstFree used name ∧
    ∀ m, 1 ≤ m → m < firstFree used name → stateNameFmt name m ∈ used :=
  firstFreeAux_spec used name (used.length + 1) 1 (exists_free_suffix used name)

/-- Modelled from the spec: the `UniqueNameGenerator` class of
`@functionless/ast` (not under `src/`), whose state-name instance `asl.ts`
creates with the formatter `(name, n) => name + " " + n`.  "State names: on
each request ... if unseen, register; else append ` N` (separator space) with
the smallest unused N.  The truncated form and all suffixed forms are
memoized to avoid re-collision."  The state is the list of memoized names. -/
def getUniqueStateName (used : List String) (name : String) : String × List String :=
  if name ∈ used then
    let u := stateNameFmt name (firstFree used name)
    (u, u :: used)
  else (name, name :: used)

/-- `ASL.createUniqueStateName` (asl.ts:363-367): truncate the requested name
to at most 75 characters, then ask the generator for a unique name. -/
def createUniqueStateName (used : List String) (stateName : String) :
    String × List String :=
  let truncatedStateName :=
    if stateName.length > 75 then stateName.take 75 else stateName
  getUniqueStateName used truncatedStateName

/-- Run the allocator over a list of requests, returning the allocated names
in order together with the final memo. -/
def runAllocator (used : List String) : List String → List String × List String
  | [] => ([], used)
  | s :: rest =>
    let r := createUniqueStateName used s
    let rec' := runAllocator r.2 rest
    (r.1 :: rec'.1, rec'.2)

theorem getUniqueStateName_not_mem (used : List String) (name : String) :
    (getUniqueStateName used name).1 ∉ used := by
  unfold getUniqueStateName
  by_cases h : name ∈ used
  · simpa [h] using (firstFree_spec used name).1
  · simp [h]

theorem getUniqueStateName_state (used : List String) (name : String) :
    (getUniqueStateName used name).2 = (getUniqueStateName used name).1 :: used := by
  unfold getUniqueStateName
  by_cases h : name ∈ used <;> simp [h]

theorem runAllocator_sound (requests used : List String) :
    (runAllocator used requests).1.Nodup ∧
    ∀ x ∈ (runAllocator used requests).1, x ∉ used := by
  induction requests generalizing used with
  | nil => simp [runAllocator]
  | cons s rest ih =>
    have hhead : (createUniqueStateName used s).1 ∉ used :=
      getUniqueStateName_not_mem used _
    have hstate : (createUniqueStateName used s).2 =
        (createUniqueStateName used s).1 :: used :=
      getUniqueStateName_state used _
    have htail := ih (createUniqueStateName used s).2
    constructor
    · refine List.Nodup.cons ?_ htail.1
      intro hmem
      have := htail.2 _ hmem
      rw [hstate] at this
      exact this (by simp)
    · intro x hx
      rcases List.mem_cons.mp hx with rfl | hx'
      · exact hhead
      · intro hxu
        exact htail.2 x hx' (by rw [hstate]; exact List.mem_cons_of_mem _ hxu)

/-- **C8.** The state-name allocator: the requested name is first truncated
to at most 75 characters; a truncated name not seen before is returned
unchanged and registered; a colliding truncated name is returned with a space
and the smallest unused suffix number appended, and is registered as well; and
over any sequence of requests every returned name is distinct from every
previously returned name. -/
theorem createUniqueStateName_spec :
    (∀ used s, s.length ≤ 75 → s ∉ used →
      createUniqueStateName used s = (s, s :: used)) ∧
    (∀ used s, 75 < s.length → s.take 75 ∉ used →
      createUniqueStateName used s = (s.take 75, s.take 75 :: used)) ∧
    (∀ used s, s.length ≤ 75 → s ∈ used →
      (createUniqueStateName used s).1 = s ++ " " ++ natToString (firstFree used s) ∧
      (createUniqueStateName used s).1 ∉ used ∧
      1 ≤ firstFree used s ∧
      (∀ m, 1 ≤ m → m < firstFree used s → s ++ " " ++ natToString m ∈ used) ∧
      (createUniqueStateName used s).2 = (createUniqueStateName used s).1 :: used) ∧
    (∀ requests used, (runAllocator used requests).1.Nodup) := by
  refine ⟨?_, ?_, ?_, ?_⟩
  · intro used s hlen hmem
    simp [createUniqueStateName, getUniqueStateName, Nat.not_lt.mpr hlen, hmem]
  · intro used s hlen hmem
    simp [createUniqueStateName, getUniqueStateName, Nat.lt_irrefl, hlen, hmem]
  · intro used s hlen hmem
    have hspec := firstFree_spec used s
    refine ⟨?_, ?_, hspec.2.1, fun m h₁ h₂ => hspec.2.2 m h₁ h₂, ?_⟩
    · simp [createUniqueStateName, getUniqueStateName, Nat.not_lt.mpr hlen, hmem,
        stateNameFmt]
    · simpa [createUniqueStateName, Nat.not_lt.mpr hlen] using
        getUniqueStateName_not_mem used s
    · simpa [createUniqueStateName, Nat.not_lt.mpr hlen] using
        getUniqueStateName_state used s
  · intro requests used
    exact (runAllocator_sound requests used).1

/-- Witness for C8 at concrete inputs: the fresh name `"b"` is returned
unchanged; the colliding name `"a"` (with `"a 1"` also taken) becomes
`"a 2"`; a three-request run returns pairwise distinct names. -/
theorem createUniqueStateName_spec_witness :
    createUniqueStateName ["a"] "b" = ("b", ["b", "a"]) ∧
    (createUniqueStateName ["a", "a 1"] "a").1 =
      "a" ++ " " ++ natToString (firstFree ["a", "a 1"] "a") ∧
    (runAllocator [] ["a", "a", "a"]).1.Nodup :=
  ⟨createUniqueStateName_spec.1 ["a"] "b" (by decide) (by decide),
   (createUniqueStateName_spec.2.2.1 ["a", "a 1"] "a" (by decide) (by decide)).1,
   createUniqueStateName_spec.2.2.2 ["a", "a", "a"] []⟩

/-- The concrete collision in the witness indeed yields `"a 2"`: of the
suffixed forms, `"a 1"` is taken and `"a 2"` is free. -/
theorem createUniqueStateName_collision_example :
    (createUniqueStateName ["a", "a 1"] "a").1 = "a 2" := rfl

/-!
## The Condition builder (`ASL` namespace of `asl.ts`, lines 5202-5499)

ASL `Choice`-rule predicates.  `condCmpValue v atom rhs` models the object
`{ Variable: v, [atom]: rhs }` (for example `{ Variable, StringEquals: "x" }`)
and `condCmpPath` models `{ Variable: v, [atom + "Path"]: path }`.
-/

inductive Condition where
  | condAnd (conds : List Condition) : Condition
  | condOr (conds : List Condition) : Condition
  | condNot (cond : Condition) : Condition
  | condIsPresent (flag : Bool) (v : String) : Condition
  | condIsNull (flag : Bool) (v : String) : Condition
  | condIsBoolean (v : String) : Condition
  | condIsString (v : String) : Condition
  | condIsNumeric (v : String) : Condition
  | condCmpValue (v : String) (atom : String) (rhs : JsonVal) : Condition
  | condCmpPath (v : String) (atom : String) (path : String) : Condition

namespace ASL

/-- `ASL.falseCondition` (asl.ts:5493): `isNull("$$.Execution.Id")`. -/
def falseCondition : Condition := .condIsNull true "$$.Execution.Id"

/-- `ASL.trueCondition` (asl.ts:5496): `isNotNull("$$.Execution.Id")`. -/
def trueCondition : Condition := .condIsNull false "$$.Execution.Id"

/-- `ASL.and` (asl.ts:5231): filters out `undefined`, wraps two or more
conditions in `And`, returns the single condition unchanged, and returns the
trivially-true condition for zero conditions. -/
def and (cond : List (Option Condition)) : Condition :=
  match cond.filterMap id with
  | [] => trueCondition
  | [c] => c
  | conds => .condAnd conds

/-- `ASL.or` (asl.ts:5242): symmetric with `and`, trivially-false for zero. -/
def or (cond : List (Option Condition)) : Condition :=
  match cond.filterMap id with
  | [] => falseCondition
  | [c] => c
  | conds => .condOr conds

/-- `ASL.not` (asl.ts:5253). -/
def not (cond : Condition) : Condition := .condNot cond

/-- `ASL.isPresent` (asl.ts:5259). -/
def isPresent (v : String) : Condition := .condIsPresent true v

/-- `ASL.isNotPresent` (asl.ts:5266). -/
def isNotPresent (v : String) : Condition := .condIsPresent false v

/-- `ASL.isNull` (asl.ts:5273). -/
def isNull (v : String) : Condition := .condIsNull true v

/-- `ASL.isNotNull` (asl.ts:5280). -/
def isNotNull (v : String) : Condition := .condIsNull false v

/-- `ASL.isBoolean` (asl.ts:5287). -/
def isBoolean (v : String) : Condition := .condIsBoolean v

/-- `ASL.isString` (asl.ts:5294). -/
def isString (v : String) : Condition := .condIsString v

/-- `ASL.isNumeric` (asl.ts:5301). -/
def isNumeric (v : String) : Condition := .condIsNumeric v

/-- `ASL.isPresentAndNotNull` (asl.ts:5308). -/
def isPresentAndNotNull (v : String) : Condition :=
  and [some (isPresent v), some (isNotNull v)]

/-- `ASL.stringEquals` (asl.ts:5324): a direct `And` of the `IsString` guard
and the raw `StringEquals` comparison. -/
def stringEquals (v : String) (s : String) : Condition :=
  .condAnd [isString v, .condCmpValue v "StringEquals" (.str s)]

/-- `ASL.stringEqualsPath` (asl.ts:5312). -/
def stringEqualsPath (v : String) (path : String) : Condition :=
  .condAnd [isString v, .condCmpPath v "StringEquals" path]

/-- `ASL.numericEquals` (asl.ts:5348). -/
def numericEquals (v : String) (n : Int) : Condition :=
  .condAnd [isNumeric v, .condCmpValue v "NumericEquals" (.num n)]

/-- `ASL.numericEqualsPath` (asl.ts:5336). -/
def numericEqualsPath (v : String) (path : String) : Condition :=
  .condAnd [isNumeric v, .condCmpPath v "NumericEquals" path]

/-- `ASL.numericLessThan` (asl.ts:5360): a bare comparison, no type guard. -/
def numericLessThan (v : String) (n : Int) : Condition :=
  .condCmpValue v "NumericLessThan" (.num n)

/-- `ASL.numericLessThanPath` (asl.ts:5367). -/
def numericLessThanPath (v : String) (path : String) : Condition :=
  .condCmpPath v "NumericLessThan" path

/-- `ASL.numericGreaterThanEquals` (asl.ts:5377). -/
def numericGreaterThanEquals (v : String) (n : Int) : Condition :=
  .condCmpValue v "NumericGreaterThanEquals" (.num n)

/-- `ASL.booleanEquals` (asl.ts:5394): a bare comparison. -/
def booleanEquals (v : String) (b : Bool) : Condition :=
  .condCmpValue v "BooleanEquals" (.bool b)

/-- `ASL.booleanEqualsPath` (asl.ts:5387). -/
def booleanEqualsPath (v : String) (path : String) : Condition :=
  .condCmpPath v "BooleanEquals" path

/-- `ASL.isTruthy` (asl.ts:5218-5229), verbatim structure. -/
def isTruthy (v : String) : Condition :=
  and
    [some (isPresentAndNotNull v),
     some (or
       [some (and [some (isString v), some (not (stringEquals v ""))]),
        some (and [some (isNumeric v), some (not (numericEquals v 0))]),
        some (and [some (isBoolean v), some (booleanEquals v true)]),
        some (not (or [some (isBoolean v), some (isNumeric v), some (isString v)]))])]

/-- `ASL.VALUE_COMPARISONS` (asl.ts:5417-5453): maps an operator and the type
of the compared value to an ASL comparison atom, `none` where ASL has no
atom (`!=`/`!==` everywhere; relational operators on booleans). -/
def VALUE_COMPARISONS (op : String) (ty : String) : Option String :=
  if op = "==" ∨ op = "===" then
    if ty = "string" then some "StringEquals"
    else if ty = "boolean" then some "BooleanEquals"
    else if ty = "number" then some "NumericEquals"
    else none
  else if op = "<" then
    if ty = "string" then some "StringLessThan"
    else if ty = "number" then some "NumericLessThan"
    else none
  else if op = "<=" then
    if ty = "string" then some "StringLessThanEquals"
    else if ty = "number" then some "NumericLessThanEquals"
    else none
  else if op = ">" then
    if ty = "string" then some "StringGreaterThan"
    else if ty = "number" then some "NumericGreaterThan"
    else none
  else if op = ">=" then
    if ty = "string" then some "StringGreaterThanEquals"
    else if ty = "number" then some "NumericGreaterThanEquals"
    else none
  else none

/-- A literal comparison operand (`string | number | boolean`), as in the
signature of `ASL.compareValueOfType`. -/
inductive PrimVal where
  | pstr (s : String) : PrimVal
  | pnum (n : Int) : PrimVal
  | pbool (b : Bool) : PrimVal

/-- `typeof` of a {@link PrimVal}. -/
def PrimVal.typeofName : PrimVal → String
  | .pstr _ => "string"
  | .pnum _ => "number"
  | .pbool _ => "boolean"

/-- Inject a {@link PrimVal} into {@link JsonVal}. -/
def PrimVal.toJson : PrimVal → JsonVal
  | .pstr s => .str s
  | .pnum n => .num n
  | .pbool b => .bool b

/-- `ASL.compareValueOfType` (asl.ts:5455-5473): looks up the atom for the
operator and the runtime type of the literal; with no mapping it returns the
trivially-false condition. -/
def compareValueOfType (v : String) (op : String) (value : PrimVal) : Condition :=
  match VALUE_COMPARISONS op value.typeofName with
  | none => falseCondition
  | some comparison => .condCmpValue v comparison value.toJson

/-- `ASL.comparePathOfType` (asl.ts:5475-5491): the path-comparison variant;
the atom name is suffixed with `Path`. -/
def comparePathOfType (v : String) (op : String) (path : String) (ty : String) : Condition :=
  match VALUE_COMPARISONS op ty with
  | none => falseCondition
  | some comparison => .condCmpPath v (comparison ++ "Path") path

end ASL

/-!
## Semantics of conditions

An environment maps a JSON path to the value found there (`none`: the path is
absent).  Comparison atoms that guard on a type evaluate to `false` when the
value has a different type, matching ASL behaviour under the `Is*` guards the
builders always emit alongside them.
-/

/-- Evaluate a single comparison atom (`{Variable, [atom]: rhs}`). -/
def evalCmpValue (value : Option JsonVal) (atom : String) (rhs : JsonVal) : Bool :=
  match value, atom, rhs with
  | some (.str a), "StringEquals", .str b => a == b
  | some (.str a), "StringLessThan", .str b => a < b
  | some (.num a), "NumericEquals", .num b => a == b
  | some (.num a), "NumericLessThan", .num b => a < b
  | some (.num a), "NumericGreaterThanEquals", .num b => b ≤ a
  | some (.bool a), "BooleanEquals", .bool b => a == b
  | _, _, _ => false

mutual

/-- Evaluate a {@link Condition} against an environment of JSON paths. -/
def evalCond (env : String → Option JsonVal) : Condition → Bool
  | .condAnd conds => evalCondAll env conds
  | .condOr conds => evalCondAny env conds
  | .condNot cond => !(evalCond env cond)
  | .condIsPresent flag v => (env v).isSome == flag
  | .condIsNull flag v =>
    (match env v with | some .null => true | _ => false) == flag
  | .condIsBoolean v => (match env v with | some (.bool _) => true | _ => false)
  | .condIsString v => (match env v with | some (.str _) => true | _ => false)
  | .condIsNumeric v => (match env v with | some (.num _) => true | _ => false)
  | .condCmpValue v atom rhs => evalCmpValue (env v) atom rhs
  | .condCmpPath v atom path =>
    match env path with
    | none => false
    | some rhs => evalCmpValue (env v) (atom.dropRight 4) rhs

def evalCondAll (env : String → Option JsonVal) : List Condition → Bool
  | [] => true
  | c :: cs => evalCond env c && evalCondAll env cs

def evalCondAny (env : String → Option JsonVal) : List Condition → Bool
  | [] => false
  | c :: cs => evalCond env c || evalCondAny env cs

end

/-!
## The graph IR

`NodeState`, `SubState` and the output sum live in `asl-graph.ts` /
`states.ts`, which are not under `src/`; their shapes are modelled from the
data-model section of the spec.  A `NodeState` keeps only the fields the
claims inspect; absent JSON fields are `none`.  `resultPath = some none`
models an explicit `ResultPath: null`.
-/

/-- A `Next` field: either a concrete label or the deferred-next sentinel
(`ASLGraph.DeferNext`). -/
inductive NextField where
  | label (s : String) : NextField
  | deferNext : NextField

mutual

/-- An ASL intrinsic-function expression (`ASLGraph.IntrinsicFunction`). -/
inductive Intrinsic where
  | fn (name : String) (args : List IntrinsicArg) : Intrinsic

/-- An argument of an intrinsic: a JSON path, a literal, or a nested
intrinsic. -/
inductive IntrinsicArg where
  | argPath (p : String) : IntrinsicArg
  | argLit (v : JsonVal) : IntrinsicArg
  | argFn (f : Intrinsic) : IntrinsicArg

end

/-- `ASLGraph.intrinsicFormat(fmt, ...args)`. -/
def intrinsicFormat (fmt : String) (args : List IntrinsicArg) : Intrinsic :=
  .fn "States.Format" (.argLit (.str fmt) :: args)

/-- `ASLGraph.intrinsicStringSplit(str, sep)`. -/
def intrinsicStringSplit (str sep : IntrinsicArg) : Intrinsic :=
  .fn "States.StringSplit" [str, sep]

/-- `ASLGraph.intrinsicStringToJson(v)`. -/
def intrinsicStringToJson (v : IntrinsicArg) : Intrinsic :=
  .fn "States.StringToJson" [v]

/-- `ASLGraph.intrinsicJsonToString(v)`. -/
def intrinsicJsonToString (v : IntrinsicArg) : Intrinsic :=
  .fn "States.JsonToString" [v]

/-- `ASLGraph.intrinsicArrayGetItem(arr, idx)`. -/
def intrinsicArrayGetItem (arr idx : IntrinsicArg) : Intrinsic :=
  .fn "States.ArrayGetItem" [arr, idx]

/-- `ASLGraph.intrinsicMathAdd(a, b)`. -/
def intrinsicMathAdd (a b : IntrinsicArg) : Intrinsic :=
  .fn "States.MathAdd" [a, b]

/-- A value of an entry in a `Parameters` object. -/
inductive ParamVal where
  | pvValue (v : JsonVal) : ParamVal
  | pvPath (p : String) : ParamVal
  | pvIntrinsic (f : Intrinsic) : ParamVal

/-- One ASL state (the fields used by the embedded fragments). -/
structure NodeState where
  stateType : String
  inputPath : Option String := none
  result : Option JsonVal := none
  parameters : Option (List (String × ParamVal)) := none
  resultPath : Option (Option String) := none
  next : Option NextField := none
  errorName : Option String := none
  causeStr : Option String := none
  choices : List (Condition × NextField) := []
  choiceDefault : Option NextField := none

/-- A sub-state graph: a single state or a named collection with a start
label (`ASLGraph.SubState`). -/
inductive StateGraph where
  | leaf (s : NodeState) : StateGraph
  | sub (startAt : String) (states : List (String × StateGraph)) : StateGraph

/-- Replace a deferred `Next` in a single node with a concrete label. -/
def updateDeferredNode (target : String) (s : NodeState) : NodeState :=
  { s with
    next := match s.next with
      | some .deferNext => some (.label target)
      | o => o
    choices := s.choices.map (fun c =>
      match c with
      | (cond, .deferNext) => (cond, .label target)
      | c => c)
    choiceDefault := match s.choiceDefault with
      | some .deferNext => some (.label target)
      | o => o }

mutual

/-- Modelled from the spec: `updateDeferredNextStates(target, sub)` replaces
every sentinel `Next` in `sub` with `target` (`asl-graph.ts` is not in the
repo). -/
def updateDeferredNextStates (target : String) : StateGraph → StateGraph
  | .leaf s => .leaf (updateDeferredNode target s)
  | .sub startAt states => .sub startAt (updateDeferredNextList target states)

def updateDeferredNextList (target : String) :
    List (String × StateGraph) → List (String × StateGraph)
  | [] => []
  | (n, g) :: rest => (n, updateDeferredNextStates target g) :: updateDeferredNextList target rest

end

/-- Chain a list of sub-states under fresh labels `s0, s1, …`, rewiring each
deferred next to the following label and leaving the last deferred. -/
def chainSubStates : Nat → List StateGraph → List (String × StateGraph)
  | _, [] => []
  | i, [g] => [("s" ++ natToString i, g)]
  | i, g :: rest =>
    ("s" ++ natToString i, updateDeferredNextStates ("s" ++ natToString (i + 1)) g) ::
      chainSubStates (i + 1) rest

/-- Modelled from the spec: `joinSubStates(node, ...subs)` concatenates
ordered sub-states into one; each's deferred-next is rewired to the next's
`startState`; the last one's deferred-next is left deferred (`asl-graph.ts`
is not in the repo; the local label scheme is this model's). -/
def joinSubStates (subs : List (Option StateGraph)) : Option StateGraph :=
  match subs.filterMap id with
  | [] => none
  | [s] => some s
  | ss => some (.sub "s0" (chainSubStates 0 ss))

/-- A `Pass` that does nothing but forward control (used where the source
writes `{ Type: "Pass", Next: ASLGraph.DeferNext }`). -/
def passDeferNoop : NodeState :=
  { stateType := "Pass", next := some .deferNext }

/-- The lowered output of an expression (`ASLGraph.Output`): a JSON path, a
literal with its contains-json-path bit, or a condition. -/
inductive AslOutput where
  | jsonPathOut (p : String) : AslOutput
  | literalOut (v : JsonVal) (containsJsonPath : Bool) : AslOutput
  | conditionOut (c : Condition) : AslOutput

/-- `ASLGraph.JsonPath | ASLGraph.LiteralValue` — operands of the arithmetic
helpers. -/
inductive JPorLit where
  | jp (p : String) : JPorLit
  | lit (v : JsonVal) (containsJsonPath : Bool) : JPorLit

/-- `ASLGraph.isLiteralString`. -/
def isLiteralString : JPorLit → Bool
  | .lit (.str _) _ => true
  | _ => false

/-- `ASLGraph.isLiteralValue`. -/
def isLiteralJP : JPorLit → Bool
  | .lit _ _ => true
  | _ => false

/-- View a {@link JPorLit} as a general output. -/
def JPorLit.toOutput : JPorLit → AslOutput
  | .jp p => .jsonPathOut p
  | .lit v c => .literalOut v c

/-- The result of lowering (`ASLGraph.NodeResults`): a bare output, or a
sub-state graph carrying an output. -/
inductive NodeResults where
  | outOnly (o : AslOutput) : NodeResults
  | withStates (g : StateGraph) (o : AslOutput) : NodeResults

/-- `ASLGraph.getAslStateOutput`. -/
def getAslStateOutput : NodeResults → AslOutput
  | .outOnly o => o
  | .withStates _ o => o

/-- The states of a {@link NodeResults}, if any. -/
def resultsGraph : NodeResults → Option StateGraph
  | .outOnly _ => none
  | .withStates g _ => some g

/-- The well-known constructed-null slot (`constants.ts` is not in the repo;
the spec names it `$.fnl_context.null`). -/
def contextNull : String := "$.fnl_context.null"

/-- A fresh heap slot (`ASL.newHeapVariable`, asl.ts:3405: `$.heap{n}` from a
monotone counter). -/
def heapVar (h : Nat) : String := "$.heap" ++ natToString h

/-- The parameters entry built from a path-or-intrinsic value. -/
def poiParam : Intrinsic ⊕ String → ParamVal
  | .inl f => .pvIntrinsic f
  | .inr p => .pvPath p

/-- Modelled from the doc comment of `ASL.assignJsonPathOrIntrinsic`
(asl.ts:3303-3325): a `Pass` whose `Parameters` is
`{ [propertyName + ".$"]: jsonPathOrIntrinsic }` with the given `ResultPath`
and `Next` (the `ASLGraph` helper itself is in `asl-graph.ts`, not in the
repo). -/
def assignJsonPathOrIntrinsicG (value : Intrinsic ⊕ String) (resultPath : String)
    (propertyName : String) (next : NextField := .deferNext) : NodeState :=
  { stateType := "Pass",
    parameters := some [(propertyName ++ ".$", poiParam value)],
    resultPath := some (some resultPath),
    next := some next }

/-- Parameters rendering of a literal that still contains embedded JSON
paths (modelled from the spec: such literals "must use `Parameters`"). -/
def paramsOfLiteral : JsonVal → List (String × ParamVal)
  | .obj fields => fields.map (fun f => (f.1, .pvValue f.2))
  | v => [("value", .pvValue v)]

/-- `ASL.assignValue` (asl.ts:5071) restricted to json-path and literal
outputs, with an explicit target: a `Pass` filled by `passWithInput`
(modelled from the spec: `InputPath` for paths, `Result` for plain literals,
`Parameters` for literals with embedded paths). -/
def assignValueSimple (value : JPorLit) (target : String) : NodeState :=
  match value with
  | .jp p =>
    { stateType := "Pass", inputPath := some p,
      resultPath := some (some target), next := some .deferNext }
  | .lit v false =>
    { stateType := "Pass", result := some v,
      resultPath := some (some target), next := some .deferNext }
  | .lit v true =>
    { stateType := "Pass", parameters := some (paramsOfLiteral v),
      resultPath := some (some target), next := some .deferNext }

/-- The `Choice`/`true`/`false` sub-state `ASL.conditionState` builds when
both branch states are absent (how `assignValue` materializes a condition
output into a boolean). -/
def conditionStateBasic (cond : Condition) (target : String) : StateGraph :=
  .sub "default"
    [("default", .leaf
        { stateType := "Choice", choices := [(cond, .label "true")],
          choiceDefault := some (.label "false") }),
     ("true", .leaf (assignValueSimple (.lit (.bool true) false) target)),
     ("false", .leaf (assignValueSimple (.lit (.bool false) false) target))]

/-- The branch tail of `conditionState`: a no-op when the branch output is
already the shared slot, otherwise an assignment of the branch output into
the shared slot (asl.ts:3375-3388). -/
def conditionBranchAssign (out : AslOutput) (tempHeap : String) : StateGraph :=
  match out with
  | .jsonPathOut p =>
    if p = tempHeap then .leaf passDeferNoop
    else .leaf (assignValueSimple (.jp p) tempHeap)
  | .literalOut v c => .leaf (assignValueSimple (.lit v c) tempHeap)
  | .conditionOut c => conditionStateBasic c tempHeap

/-- `ASL.conditionState` (asl.ts:3352-3394): a `Choice` on `cond`; the true
branch runs `trueState` and assigns its output (default: literal `true`) to
a shared slot, the false branch symmetrically; the slot is a fresh heap
variable unless `outputJsonPath` is given.  Returns the graph, its output and
the heap counter. -/
def conditionState (h : Nat) (cond : Condition)
    (trueState falseState : Option NodeResults) (outputJsonPath : Option String) :
    (StateGraph × AslOutput) × Nat :=
  let trueOutput := (trueState.map getAslStateOutput).getD (.literalOut (.bool true) false)
  let falseOutput := (falseState.map getAslStateOutput).getD (.literalOut (.bool false) false)
  let tempHeap := outputJsonPath.getD (heapVar h)
  let h' := if outputJsonPath.isSome then h else h + 1
  let trueBranch := (joinSubStates
    [trueState.bind resultsGraph, some (conditionBranchAssign trueOutput tempHeap)]).getD
    (.leaf passDeferNoop)
  let falseBranch := (joinSubStates
    [falseState.bind resultsGraph, some (conditionBranchAssign falseOutput tempHeap)]).getD
    (.leaf passDeferNoop)
  ((.sub "default"
      [("default", .leaf
          { stateType := "Choice", choices := [(cond, .label "true")],
            choiceDefault := some (.label "false") }),
       ("true", trueBranch),
       ("false", falseBranch)],
    .jsonPathOut tempHeap), h')

/-!
## String/number coercion and `+` (claims C2, C6)
-/

/-- `ASL.jsonPathValueToString` (asl.ts:2917-2950): pass a string through,
stringify anything else with `States.JsonToString`; the result lives at
`{heap}.str`. -/
def jsonPathValueToString (p : String) (resultPath : String) : StateGraph × String :=
  let heap := resultPath
  (.sub "checkString"
    [("checkString", .leaf
        { stateType := "Choice", choices := [(ASL.isString p, .label "assign")],
          choiceDefault := some (.label "format") }),
     ("format", .leaf (assignJsonPathOrIntrinsicG
        (.inl (intrinsicJsonToString (.argPath p))) heap "str")),
     ("assign", .leaf
        { stateType := "Pass", inputPath := some p,
          resultPath := some (some (heap ++ ".str")), next := some .deferNext })],
   heap ++ ".str")

/-- `ASL.jsonPathValueToNumber` (asl.ts:3005-3087): the `Choice` dispatcher
turning any runtime value into a number-or-null at `{heap}.num`. -/
def jsonPathValueToNumber (p : String) (resultPath : String) : StateGraph × String :=
  let heap := resultPath
  (.sub "check"
    [("check", .leaf
        { stateType := "Choice",
          choices :=
            [(ASL.isNotPresent p, .label "null"),
             (ASL.and [some (ASL.isString p), some (ASL.stringEquals p "")], .label "zero"),
             (ASL.isNull p, .label "zero"),
             (ASL.isString p, .label "format"),
             (ASL.isNumeric p, .label "assign"),
             (ASL.and [some (ASL.isBoolean p), some (ASL.booleanEquals p true)], .label "one"),
             (ASL.and [some (ASL.isBoolean p), some (ASL.booleanEquals p false)], .label "zero")],
          choiceDefault := some (.label "null") }),
     ("format", .leaf (assignJsonPathOrIntrinsicG
        (.inl (intrinsicStringToJson (.argPath p))) heap "num" (.label "checkStringOutput"))),
     ("checkStringOutput", .leaf
        { stateType := "Choice",
          choices := [(ASL.isNumeric (heap ++ ".num"), .deferNext)],
          choiceDefault := some (.label "null") }),
     ("assign", .leaf (assignValueSimple (.jp p) (heap ++ ".num"))),
     ("one", .leaf (assignValueSimple (.lit (.num 1) false) (heap ++ ".num"))),
     ("zero", .leaf (assignValueSimple (.lit (.num 0) false) (heap ++ ".num"))),
     ("null", .leaf (assignValueSimple (.jp contextNull) (heap ++ ".num")))],
   heap ++ ".num")

/-- JavaScript `Number(v)` as a JSON value, with `NaN` modelled as `null`. -/
def jsNumVal (v : JsonVal) : JsonVal :=
  match jsToNumber v with
  | some n => .num n
  | none => .null

/-- JavaScript `Number(l) + Number(r)` with `NaN` (absorbing) modelled as
`null`. -/
def jsAddVal (l r : JsonVal) : JsonVal :=
  match jsToNumber l, jsToNumber r with
  | some a, some b => .num (a + b)
  | _, _ => .null

/-- `ASL.numericAdd` (asl.ts:3195-3230): constant-fold two literals;
otherwise coerce path operands to numbers and add with `States.MathAdd`.
A heap variable is allocated up front in every case, as in the source. -/
def numericAdd (h : Nat) (leftOut rightOut : JPorLit) : NodeResults × Nat :=
  let heap := heapVar h
  let h' := h + 1
  match leftOut, rightOut with
  | .lit lv _, .lit rv _ => (.outOnly (.literalOut (jsAddVal lv rv) false), h')
  | l, r =>
    let leftArg : IntrinsicArg := match l with
      | .lit lv _ => .argLit (jsNumVal lv)
      | .jp _ => .argPath (heap ++ ".str.left.num")
    let rightArg : IntrinsicArg := match r with
      | .lit rv _ => .argLit (jsNumVal rv)
      | .jp _ => .argPath (heap ++ ".str.right.num")
    let g := (joinSubStates
      [match l with
       | .lit _ _ => none
       | .jp lp => some (jsonPathValueToNumber lp (heap ++ ".str.left")).1,
       match r with
       | .lit _ _ => none
       | .jp rp => some (jsonPathValueToNumber rp (heap ++ ".str.right")).1,
       some (.leaf (assignJsonPathOrIntrinsicG
         (.inl (intrinsicMathAdd leftArg rightArg)) heap "str"))]).getD
      (.leaf passDeferNoop)
    (.withStates g (.jsonPathOut (heap ++ ".str")), h')

/-- `ASL.stringConcat` (asl.ts:3235-3269): constant-fold two literals;
otherwise coerce path operands to strings and concatenate with
`States.Format("{}{}", …)`. -/
def stringConcat (h : Nat) (leftOut rightOut : JPorLit) : NodeResults × Nat :=
  let heap := heapVar h
  let h' := h + 1
  match leftOut, rightOut with
  | .lit lv _, .lit rv _ =>
    (.outOnly (.literalOut (.str (jsToString lv ++ jsToString rv)) false), h')
  | l, r =>
    let leftArg : IntrinsicArg := match l with
      | .lit lv _ => .argLit (.str (jsToString lv))
      | .jp _ => .argPath (heap ++ ".str.left.str")
    let rightArg : IntrinsicArg := match r with
      | .lit rv _ => .argLit (.str (jsToString rv))
      | .jp _ => .argPath (heap ++ ".str.right.str")
    let g := (joinSubStates
      [match l with
       | .lit _ _ => none
       | .jp lp => some (jsonPathValueToString lp (heap ++ ".str.left")).1,
       match r with
       | .lit _ _ => none
       | .jp rp => some (jsonPathValueToString rp (heap ++ ".str.right")).1,
       some (.leaf (assignJsonPathOrIntrinsicG
         (.inl (intrinsicFormat "{}{}" [leftArg, rightArg])) heap "str"))]).getD
      (.leaf passDeferNoop)
    (.withStates g (.jsonPathOut (heap ++ ".str")), h')

/-- The `IsString` test contributed by a `+` operand: present only for
json-path operands (asl.ts:3110-3118). -/
def plusOperandCond : JPorLit → Option Condition
  | .jp p => some (ASL.isString p)
  | .lit _ _ => none

/-- `ASL.plus` (asl.ts:3089-3124): if either operand is a literal string,
string concat; else if both are literals, numeric add; otherwise a runtime
`Choice` dispatching on whether either json-path operand is a string. -/
def plus (h : Nat) (leftOut rightOut : JPorLit) : NodeResults × Nat :=
  if isLiteralString leftOut || isLiteralString rightOut then
    stringConcat h leftOut rightOut
  else if isLiteralJP leftOut && isLiteralJP rightOut then
    numericAdd h leftOut rightOut
  else
    let cond := ASL.or [plusOperandCond leftOut, plusOperandCond rightOut]
    let concatRes := stringConcat h leftOut rightOut
    let addRes := numericAdd concatRes.2 leftOut rightOut
    let cs := conditionState addRes.2 cond (some concatRes.1) (some addRes.1) none
    (.withStates cs.1.1 cs.1.2, cs.2)

/-!
## Unary negation (claim C6)
-/

/-- The operand type of `ASL.negateJsonPathOrLiteralValue`
(`ASLGraph.JsonPath | ASLGraph.LiteralValue<number | null>`). -/
inductive NumericOut where
  | path (p : String) : NumericOut
  | litNum (n : Int) : NumericOut
  | litNull : NumericOut

/-- `ASL.negateJsonPathOrLiteralValue` (asl.ts:2828-2904): a literal `null`
(`NaN`) passes through unchanged, a literal number is negated at compile
time, and a json path is negated at runtime by the `check`/`NaN`/`negative`/
`positive` sub-state writing to a fresh heap slot's `num` field. -/
def negateJsonPathOrLiteralValue (h : Nat) : NumericOut → NodeResults × Nat
  | .litNull => (.outOnly (.literalOut .null false), h)
  | .litNum n => (.outOnly (.literalOut (.num (-n)) false), h)
  | .path p =>
    let heap := heapVar h
    (.withStates
      (.sub "check"
        [("check", .leaf
            { stateType := "Choice",
              choices :=
                [(ASL.isNull p, .label "NaN"),
                 (ASL.numericLessThan p 0, .label "negative")],
              choiceDefault := some (.label "positive") }),
         ("NaN", .leaf (assignValueSimple (.jp contextNull) (heap ++ ".num"))),
         ("negative", (joinSubStates
            [some (.leaf (assignJsonPathOrIntrinsicG
               (.inl (intrinsicStringSplit
                 (.argFn (intrinsicFormat "{}" [.argPath p]))
                 (.argLit (.str "-"))))
               heap "num")),
             some (.leaf (assignJsonPathOrIntrinsicG
               (.inl (intrinsicStringToJson
                 (.argFn (intrinsicArrayGetItem
                   (.argPath (heap ++ ".num")) (.argLit (.num 0))))))
               heap "num"))]).getD (.leaf passDeferNoop)),
         ("positive", .leaf (assignJsonPathOrIntrinsicG
            (.inl (intrinsicStringToJson
              (.argFn (intrinsicFormat "-{}" [.argPath p]))))
            heap "num"))])
      (.jsonPathOut (heap ++ ".num")), h + 1)

/-- The literal arm of `ASL.evalToNumber` (asl.ts:2986-2993): a number stays,
anything else goes through `Number(…)` with `NaN` becoming `null`. -/
def evalToNumberLit (v : JsonVal) : NumericOut :=
  match v with
  | .num n => .litNum n
  | v =>
    match jsToNumber v with
    | some k => .litNum k
    | none => .litNull

/-- `ASL.negateExpr` (asl.ts:2808-2821) on an operand that lowers to a
literal: coerce to a number, then negate. -/
def negateExprLit (h : Nat) (v : JsonVal) : NodeResults × Nat :=
  negateJsonPathOrLiteralValue h (evalToNumberLit v)

/-- `ASL.negateExpr` (asl.ts:2808-2821) on an operand that lowers to a json
path: `evalToNumber` emits the to-number dispatcher, whose states are added
before the negation sub-state; the negation consumes the `{heap}.num`
output. -/
def negateExprPath (h : Nat) (p : String) : NodeResults × Nat :=
  let toNum := jsonPathValueToNumber p (heapVar h)
  let neg := negateJsonPathOrLiteralValue (h + 1) (.path toNum.2)
  ((.withStates
      ((joinSubStates [some toNum.1, resultsGraph neg.1]).getD (.leaf passDeferNoop))
      (getAslStateOutput neg.1)), neg.2)

/-!
## Error routing for `throw` (claims C1, C5)

`ASL.throw` (asl.ts:3424-3486) inspects the AST ancestry of the throwing
node: the nearest enclosing `FunctionLike` closure
(`node.findParent(isFunctionLike)`) and the nearest enclosing handler
(`node.throw()`, from `@functionless/ast`, modelled from the spec: "find the
nearest enclosing catch clause, finally block, or absence-of-handler").  The
ancestry is modelled as the list of enclosing nodes, nearest first.
-/

/-- What an enclosing AST node contributes to error routing.
`closure inlineArrayArg` is a `FunctionLike`; the flag records the special
case of asl.ts:3450-3456 — the closure is an argument of a
`.map`/`.filter`/`.forEach` call on a non-reference (a plain array), which is
compiled inline rather than as a `Map`/`Parallel` state.
`catchClause hasVariableDecl` is a try's catch clause; `finallyBlock` records
whether the sibling catch clause can throw and whether the finally block is
terminal (asl.ts:3464-3472). -/
inductive Ancestor where
  | closure (inlineArrayArg : Bool) : Ancestor
  | catchClause (hasVariableDecl : Bool) : Ancestor
  | finallyBlock (catchCanThrow : Bool) (finallyTerminal : Bool) : Ancestor
  | other : Ancestor

def isHandler : Ancestor → Bool
  | .catchClause _ => true
  | .finallyBlock _ _ => true
  | _ => false

def isClosure : Ancestor → Bool
  | .closure _ => true
  | _ => false

/-- Find the nearest ancestor satisfying `p`, with its distance. -/
def findFirstWith (p : Ancestor → Bool) : List Ancestor → Option (Nat × Ancestor)
  | [] => none
  | a :: rest =>
    if p a then some (0, a)
    else (findFirstWith p rest).map (fun x => (x.1 + 1, x.2))

/-- The inline-array-argument flag of a closure (false for non-closures). -/
def closureInlineFlag : Ancestor → Bool
  | .closure b => b
  | _ => false

/-- The `ResultPath` chosen for a routed throw (asl.ts:3462-3478): the
generated name of the clause when the catch declares a variable, the
generated slot of a finally block whose catch can throw and which is not
terminal, and `null` otherwise. -/
def throwResultPath (genName : String) : Ancestor → Option String
  | .catchClause true => some ("$." ++ genName)
  | .catchClause false => none
  | .finallyBlock canThrow terminal =>
    if canThrow && !terminal then some ("$." ++ genName) else none
  | _ => none

/-- The `Next`/`ResultPath` transition of a routed throw. -/
structure ThrowTransition where
  next : String
  resultPath : Option String

/-- `ASL.throw` (asl.ts:3424-3486): `none` when the error is terminal —
either no handler exists, or a closure that is not an inline array-method
argument lies strictly between the throw and the handler.  Otherwise the
transition to the reserved `__catch` label. -/
def aslThrow (genName : String) (ancestors : List Ancestor) : Option ThrowTransition :=
  let mapOrParallelClosure := findFirstWith isClosure ancestors
  let catchOrFinally := findFirstWith isHandler ancestors
  match catchOrFinally with
  | none => none
  | some (hi, handler) =>
    match mapOrParallelClosure with
    | none => some ⟨"__catch", throwResultPath genName handler⟩
    | some (ci, c) =>
      if closureInlineFlag c = true ∨ hi < ci then
        some ⟨"__catch", throwResultPath genName handler⟩
      else none

/-- The `ThrowStmt` emission (asl.ts:833-846): a terminal `Fail` carrying the
resolved error name and the JSON-stringified cause, or a `Pass` whose
`Result` is the cause object spread with the routed transition. -/
def lowerThrowStmt (errorName : String) (causeJson : JsonVal) (genName : String)
    (ancestors : List Ancestor) : NodeState :=
  match aslThrow genName ancestors with
  | none =>
    { stateType := "Fail", errorName := some errorName,
      causeStr := some (jsonStringify causeJson) }
  | some t =>
    { stateType := "Pass", result := some causeJson,
      next := some (.label t.next), resultPath := some t.resultPath }

/-!
## The try/catch pre-amble (claim C5)
-/

/-- `tryFlowStates` of the `TryStmt` lowering (asl.ts:949-967): when flow
analysis finds a task in the try block (`analyzeFlow(stmt.tryBlock).hasTask`,
from `guards.ts`, passed here as a flag) and the catch clause declares a
variable, a two-state pre-amble that parses `$.<name>.Cause` with
`States.StringToJson` and overwrites the error variable with the parsed
value; otherwise nothing. -/
def tryFlowStates (hasTask : Bool) (catchHasVariableDecl : Bool)
    (errorVariableName : String) : Option StateGraph :=
  if hasTask && catchHasVariableDecl then
    joinSubStates
      [some (.leaf (assignJsonPathOrIntrinsicG
         (.inl (intrinsicStringToJson
           (.argPath ("$." ++ errorVariableName ++ ".Cause"))))
         ("$." ++ errorVariableName) "0_ParsedError")),
       some (.leaf
         { stateType := "Pass",
           inputPath := some ("$." ++ errorVariableName ++ ".0_ParsedError"),
           resultPath := some (some ("$." ++ errorVariableName)),
           next := some .deferNext })]
  else none

/-- The `catch` entry of the `TryStmt` lowering (asl.ts:969-977): the
pre-amble (if any) joined in front of the lowered catch clause. -/
def catchClauseStates (hasTask catchHasVariableDecl : Bool)
    (errorVariableName : String) (catchBody : Option StateGraph) : StateGraph :=
  (joinSubStates
    [tryFlowStates hasTask catchHasVariableDecl errorVariableName,
     catchBody]).getD (.leaf passDeferNoop)

/-!
## `filter` to a JSON-Path filter expression (claim C3)

`ASL.filterToJsonPath` (asl.ts:3710-3836) compiles a filter predicate to a
bare JSON-Path filter expression when possible; `undefined` means "fall back
to the iteration skeleton" (`filterToASLGraph`).  The predicate's expressions
are modelled by `FExpr`; `lit v` stands for an expression on which
`evalToConstant` succeeds with the constant `v`.
-/

/-- The resolution of an identifier inside the filter predicate: a binding
chain rooted at one of the predicate's parameters (asl.ts:3767-3808). -/
inductive BindingRef where
  | paramDecl (isFirstParam : Bool) : BindingRef
  | arrayElem (parent : BindingRef) (idx : Nat) : BindingRef
  | objProp (parent : BindingRef) (propName : Option String) : BindingRef

/-- What an identifier in the predicate looks up to (asl.ts:3751-3766):
nothing (`lookup()` undefined), a declaration outside the predicate, or a
parameter/binding-element of the predicate. -/
inductive FilterIdent where
  | unresolved : FilterIdent
  | outside (name : String) : FilterIdent
  | bound (b : BindingRef) : FilterIdent

/-- The expression forms `toFilterCondition` inspects. -/
inductive FExpr where
  | lit (v : JsonVal) : FExpr
  | ident (r : FilterIdent) : FExpr
  | binary (op : String) (l r : FExpr) : FExpr
  | unary (op : String) (e : FExpr) : FExpr
  | propAccess (e : FExpr) (name : String) : FExpr
  | elementAccess (e : FExpr) (field : Int ⊕ String) : FExpr

def escapeQuoteChars : List Char → List Char
  | [] => []
  | c :: cs =>
    if c = squoteChar then backslashChar :: squoteChar :: escapeQuoteChars cs
    else c :: escapeQuoteChars cs

/-- asl.ts:3729: `constant.constant.replace(/'/g, "\\'")`. -/
def escapeSingleQuotes (s : String) : String := (escapeQuoteChars s.data).asString

/-- Rendering of a constant inside a filter expression (asl.ts:3724-3739):
strings are wrapped in single quotes with quotes escaped; non-null objects
and arrays cannot be rendered (fall back); anything else renders as its
JavaScript template-string form. -/
def renderConstant : JsonVal → Option String
  | .str s => some ("\x27" ++ escapeSingleQuotes s ++ "\x27")
  | .obj _ => none
  | .arr _ => none
  | .null => some "null"
  | .bool b => some (if b then "true" else "false")
  | .num n => some (intToString n)

/-- `resolveRef` (asl.ts:3767-3808): the predicate's first parameter renders
as `@`; other parameters cannot be rendered; array bindings index by
position, object bindings access by constant property name. -/
def resolveRef : BindingRef → Option String
  | .paramDecl true => some "@"
  | .paramDecl false => none
  | .arrayElem parent idx =>
    (resolveRef parent).map (fun v => v ++ "[" ++ natToString idx ++ "]")
  | .objProp parent propName =>
    match resolveRef parent with
    | none => none
    | some v =>
      match propName with
      | none => none
      | some p => some (v ++ "[\x27" ++ p ++ "\x27]")

/-- asl.ts:3744-3746: `===` renders as `==`, `!==` as `!=`, every other
operator verbatim. -/
def renderFilterOp (op : String) : String :=
  if op = "===" then "==" else if op = "!==" then "!=" else op

/-- `toFilterCondition` (asl.ts:3723-3826). -/
def toFilterCondition : FExpr → Option String
  | .lit v => renderConstant v
  | .binary op l r =>
    match toFilterCondition l, toFilterCondition r with
    | some a, some b => some (a ++ renderFilterOp op ++ b)
    | _, _ => none
  | .unary op e => (toFilterCondition e).map (fun r => op ++ r)
  | .ident .unresolved => none
  | .ident (.outside name) => some ("$." ++ name)
  | .ident (.bound b) => resolveRef b
  | .propAccess e name => (toFilterCondition e).map (fun v => v ++ "." ++ name)
  | .elementAccess e field =>
    (toFilterCondition e).map (fun v =>
      v ++ "[" ++
        (match field with
         | .inl n => intToString n
         | .inr s => "\x27" ++ s ++ "\x27") ++ "]")

/-- A statement of the predicate body (only single-`return` bodies compile;
asl.ts:3714-3721). -/
inductive PredicateStmt where
  | ret (e : Option FExpr) : PredicateStmt
  | nonRet : PredicateStmt

/-- The predicate function's body. -/
structure Predicate where
  statements : List PredicateStmt

/-- `ASL.filterToJsonPath` (asl.ts:3710-3836): requires the body to be
exactly one `return`; a missing return expression becomes the `null`
literal; on success yields `<array>[?(<expression>)]`. -/
def filterToJsonPath (valueJsonPath : String) (predicate : Predicate) :
    Option String :=
  match predicate.statements with
  | [PredicateStmt.ret e] =>
    (toFilterCondition (e.getD (.lit .null))).map
      (fun expr => valueJsonPath ++ "[?(" ++ expr ++ ")]")
  | _ => none

/-- The two lowerings of `array.filter` (asl.ts:3696-3701): the bare
JSON-Path filter when `filterToJsonPath` succeeds, otherwise the iteration
skeleton (`filterToASLGraph`). -/
inductive FilterLowering where
  | jsonPathFilter (p : String) : FilterLowering
  | skeleton : FilterLowering

/-- `ASL.filterToStateOutput` (asl.ts:3674-3703), restricted to the choice
between the JSON-Path bypass and the skeleton fallback. -/
def filterToStateOutput (arrPath : String) (predicate : Predicate) :
    FilterLowering :=
  match filterToJsonPath arrPath predicate with
  | some p => .jsonPathFilter p
  | none => .skeleton

/-!
## Compile-time rejections (claim C9)

`SynthError` carries a stable code from `@functionless/error-code` (not
under `src/`; the codes are modelled from the spec's list); a bare
`throw new Error(...)` carries none.
-/

/-- Modelled from the spec: the stable error codes of
`@functionless/error-code` (module not under `src/`). -/
inductive ErrorCode where
  | Unsupported_Feature : ErrorCode
  | Invalid_Input : ErrorCode
  | Unexpected_Error : ErrorCode
  | Classes_are_not_supported : ErrorCode
  | StepFunction_Throw_must_be_Error_or_StepFunctionError_class : ErrorCode
  | Step_Functions_does_not_support_undefined : ErrorCode
  | StepFunctions_property_names_must_be_constant : ErrorCode
  | StepFunctions_Invalid_collection_access : ErrorCode
  | Cannot_perform_all_arithmetic_or_bitwise_computations_on_variables_in_Step_Function : ErrorCode
  | StepFunctions_error_cause_must_be_a_constant : ErrorCode
  deriving DecidableEq

/-- A compile-time rejection: a `SynthError` with a stable code, or a plain
JavaScript `Error` without one. -/
inductive CompileError where
  | synth (code : ErrorCode) (message : String) : CompileError
  | plain (message : String) : CompileError
  deriving DecidableEq

/-- Whether a rejection carries a stable error code. -/
def hasStableCode : CompileError → Bool
  | .synth _ _ => true
  | .plain _ => false

/-- The `BreakStmt`/`ContinueStmt` lowering (asl.ts:433-452): outside any
loop, a plain `Error("Stack Underflow")`; inside, a `Pass` to the reserved
break/continue label. -/
def lowerBreakContinueStmt (isBreak : Bool) (hasEnclosingLoop : Bool) :
    Except CompileError NodeState :=
  if !hasEnclosingLoop then .error (.plain "Stack Underflow")
  else .ok
    (if isBreak then { stateType := "Pass", next := some (.label "__BreakNext") }
     else
       { stateType := "Pass", next := some (.label "__ContinueNext"),
         resultPath := some none })

/-- The unrecognized-call rejection (asl.ts:1916-1921): a plain `Error`. -/
def unsupportedCallRejection (stateName : String) : CompileError :=
  .plain ("call must be an integration call, list(.slice, .map, .forEach, .filter, or .join), String.split, Number(), Boolean, String(), JSON.parse, JSON.stringify, or Promise.all, found: " ++ stateName)

/-- The `with`-statement rejection (asl.ts:1127-1131): `Unsupported_Feature`. -/
def withStmtRejection : CompileError :=
  .synth .Unsupported_Feature "with statements are not yet supported by ASL"

/-- The `switch`-statement rejection (asl.ts:1132-1141). -/
def switchStmtRejection : CompileError :=
  .synth .Unsupported_Feature
    "switch statements are not yet supported in Step Functions, see https://github.com/functionless/functionless/issues/306"

/-- The normalizer's `for-await` rejection (asl.ts:229-233). -/
def forAwaitRejection : CompileError :=
  .synth .Unsupported_Feature
    "Step Functions does not yet support for-await, see https://github.com/functionless/functionless/issues/390"

/-- The normalizer's rest-parameter rejection (asl.ts:234-239). -/
def restParameterRejection : CompileError :=
  .synth .Unsupported_Feature
    "Step Functions does not yet support rest parameters, see https://github.com/functionless/functionless/issues/391"

/-- Look up a local label inside a sub-state graph. -/
def lookupState (g : StateGraph) (name : String) : Option StateGraph :=
  match g with
  | .leaf _ => none
  | .sub _ states => (states.find? (fun x => x.1 == name)).map (fun x => x.2)

/-- The truthiness table of the specification, written from its words:
"present ∧ not-null ∧ ((string ∧ ≠\"\") ∨ (number ∧ ≠0) ∨ (boolean ∧ true) ∨
compound (neither string, number, nor boolean — i.e. object/array))". -/
def truthySpecTable (env : String → Option JsonVal) (v : String) : Bool :=
  match env v with
  | none => false
  | some .null => false
  | some (.str s) => !(s == "")
  | some (.num n) => !(n == 0)
  | some (.bool b) => b
  | some (.arr _) => true
  | some (.obj _) => true

/-!
## Theorems for claims C4, C7 and C10
-/

/-- **C4.** For every JSON path `v`, the condition built by `ASL.isTruthy v`
evaluates, on every environment, to exactly the conjunction demanded by the
spec: `v` is present, not null, and is a non-empty string, a non-zero number,
the boolean `true`, or a compound value (neither string, number, nor
boolean). -/
theorem isTruthy_eval_eq_spec (env : String → Option JsonVal) (v : String) :
    evalCond env (ASL.isTruthy v) = truthySpecTable env v := by
  cases h : env v with
  | none =>
    simp [ASL.isTruthy, ASL.and, ASL.or, ASL.not, ASL.isPresentAndNotNull,
      ASL.isPresent, ASL.isNotNull, ASL.isString, ASL.isNumeric, ASL.isBoolean,
      ASL.stringEquals, ASL.numericEquals, ASL.booleanEquals, evalCond,
      evalCondAll, evalCondAny, evalCmpValue, truthySpecTable, h]
  | some val =>
    cases val <;>
      simp [ASL.isTruthy, ASL.and, ASL.or, ASL.not, ASL.isPresentAndNotNull,
        ASL.isPresent, ASL.isNotNull, ASL.isString, ASL.isNumeric, ASL.isBoolean,
        ASL.stringEquals, ASL.numericEquals, ASL.booleanEquals, evalCond,
        evalCondAll, evalCondAny, evalCmpValue, truthySpecTable, h]

/-- **C7.** The condition combinators: `and` of zero conditions (after
filtering out `undefined`) is the trivially-true predicate
`{Variable: "$$.Execution.Id", IsNull: false}`; of exactly one it is that
condition; of two or more it is an `And` node; `or` is symmetric with the
trivially-false predicate `{Variable: "$$.Execution.Id", IsNull: true}`. -/
theorem and_or_combinators :
    (∀ l : List (Option Condition), l.filterMap id = [] →
      ASL.and l = Condition.condIsNull false "$$.Execution.Id") ∧
    (∀ (l : List (Option Condition)) (c : Condition), l.filterMap id = [c] →
      ASL.and l = c) ∧
    (∀ (l : List (Option Condition)) (c₁ c₂ : Condition) (cs : List Condition),
      l.filterMap id = c₁ :: c₂ :: cs →
      ASL.and l = Condition.condAnd (c₁ :: c₂ :: cs)) ∧
    (∀ l : List (Option Condition), l.filterMap id = [] →
      ASL.or l = Condition.condIsNull true "$$.Execution.Id") ∧
    (∀ (l : List (Option Condition)) (c : Condition), l.filterMap id = [c] →
      ASL.or l = c) ∧
    (∀ (l : List (Option Condition)) (c₁ c₂ : Condition) (cs : List Condition),
      l.filterMap id = c₁ :: c₂ :: cs →
      ASL.or l = Condition.condOr (c₁ :: c₂ :: cs)) := by
  refine ⟨?_, ?_, ?_, ?_, ?_, ?_⟩ <;>
    first
    | (intro l h; simp [ASL.and, ASL.or, ASL.trueCondition, ASL.falseCondition, h])
    | (intro l c h; simp [ASL.and, ASL.or, h])
    | (intro l c₁ c₂ cs h; simp [ASL.and, ASL.or, h])

/-- Witness for C7 at concrete inputs: an empty list (with an `undefined`
entry that is filtered out), a singleton, and a two-element list. -/
theorem and_or_combinators_witness :
    ASL.and [none] = Condition.condIsNull false "$$.Execution.Id" ∧
    ASL.and [some ASL.falseCondition] = ASL.falseCondition ∧
    ASL.and [some ASL.falseCondition, none, some ASL.trueCondition] =
      Condition.condAnd [ASL.falseCondition, ASL.trueCondition] ∧
    ASL.or [none] = Condition.condIsNull true "$$.Execution.Id" ∧
    ASL.or [some ASL.trueCondition] = ASL.trueCondition ∧
    ASL.or [some ASL.falseCondition, none, some ASL.trueCondition] =
      Condition.condOr [ASL.falseCondition, ASL.trueCondition] :=
  ⟨and_or_combinators.1 [none] rfl,
   (and_or_combinators.2.1) [some ASL.falseCondition] ASL.falseCondition rfl,
   (and_or_combinators.2.2.1) [some ASL.falseCondition, none, some ASL.trueCondition]
     ASL.falseCondition ASL.trueCondition [] rfl,
   (and_or_combinators.2.2.2.1) [none] rfl,
   (and_or_combinators.2.2.2.2.1) [some ASL.trueCondition] ASL.trueCondition rfl,
   (and_or_combinators.2.2.2.2.2) [some ASL.falseCondition, none, some ASL.trueCondition]
     ASL.falseCondition ASL.trueCondition [] rfl⟩

/-- The operator/type pairs that have no ASL comparison atom. -/
def unmappedPair (op : String) (ty : String) : Prop :=
  op = "!=" ∨ op = "!==" ∨
  ((op = "<" ∨ op = "<=" ∨ op = ">" ∨ op = ">=") ∧ ty = "boolean")

/-- **C10.** For every comparison whose operator/type pair has no ASL atom
(`!=`, `!==` for every type; `<`, `<=`, `>`, `>=` against a boolean),
`compareValueOfType` and `comparePathOfType` return the trivially-false
predicate `{Variable: "$$.Execution.Id", IsNull: true}` rather than raising
an error, and that predicate evaluates to `false` in every environment in
which the execution id is a (non-null) string, i.e. on every run. -/
theorem unmapped_comparisons_false :
    (∀ (v op : String) (value : ASL.PrimVal),
      unmappedPair op value.typeofName →
      ASL.compareValueOfType v op value = ASL.falseCondition) ∧
    (∀ (v op path ty : String), unmappedPair op ty →
      ASL.comparePathOfType v op path ty = ASL.falseCondition) ∧
    (∀ (env : String → Option JsonVal) (s : String),
      env "$$.Execution.Id" = some (JsonVal.str s) →
      evalCond env ASL.falseCondition = false) := by
  refine ⟨?_, ?_, ?_⟩
  · intro v op value h
    rcases h with h | h | ⟨h, hty⟩
    · subst h
      cases value <;>
        simp [ASL.compareValueOfType, ASL.VALUE_COMPARISONS, ASL.PrimVal.typeofName]
    · subst h
      cases value <;>
        simp [ASL.compareValueOfType, ASL.VALUE_COMPARISONS, ASL.PrimVal.typeofName]
    · cases value with
      | pstr s => simp [ASL.PrimVal.typeofName] at hty
      | pnum n => simp [ASL.PrimVal.typeofName] at hty
      | pbool b =>
        rcases h with h | h | h | h <;> subst h <;>
          simp [ASL.compareValueOfType, ASL.VALUE_COMPARISONS, ASL.PrimVal.typeofName]
  · intro v op path ty h
    rcases h with h | h | ⟨h, hty⟩
    · subst h
      simp [ASL.comparePathOfType, ASL.VALUE_COMPARISONS]
    · subst h
      simp [ASL.comparePathOfType, ASL.VALUE_COMPARISONS]
    · subst hty
      rcases h with h | h | h | h <;> subst h <;>
        simp [ASL.comparePathOfType, ASL.VALUE_COMPARISONS]
  · intro env s h
    simp [ASL.falseCondition, evalCond, h]

/-- **C2.** The `+` lowering: two literal operands constant-fold to a single
literal output with no states (a string concatenation when either is a
string, a numeric add otherwise); an operand that is a literal string always
selects the string-concatenation lowering; two non-string literals select the
numeric add; and when at least one operand is a JSON path (and neither is a
literal string) the lowering is a `Choice` whose condition is the disjunction
of `IsString` over the json-path operands, whose true branch runs the
string-concatenation sub-state and whose false branch runs the
`States.MathAdd` sub-state, both assigning into a shared fresh heap slot. -/
theorem plus_lowering :
    (∀ (h : Nat) (lv : JsonVal) (lc : Bool) (rv : JsonVal) (rc : Bool),
      plus h (.lit lv lc) (.lit rv rc) =
        (.outOnly (.literalOut
          (if isLiteralString (.lit lv lc) || isLiteralString (.lit rv rc) then
            JsonVal.str (jsToString lv ++ jsToString rv)
          else jsAddVal lv rv) false), h + 1)) ∧
    (∀ (h : Nat) (l r : JPorLit), (isLiteralString l || isLiteralString r) = true →
      plus h l r = stringConcat h l r) ∧
    (∀ (h : Nat) (l r : JPorLit), (isLiteralString l || isLiteralString r) = false →
      (isLiteralJP l && isLiteralJP r) = true →
      plus h l r = numericAdd h l r) ∧
    (∀ (h : Nat) (l r : JPorLit), (isLiteralString l || isLiteralString r) = false →
      (isLiteralJP l && isLiteralJP r) = false →
      plus h l r =
        (.withStates
          (.sub "default"
            [("default", .leaf
                { stateType := "Choice",
                  choices :=
                    [(ASL.or [plusOperandCond l, plusOperandCond r], .label "true")],
                  choiceDefault := some (.label "false") }),
             ("true", (joinSubStates
                [resultsGraph (stringConcat h l r).1,
                 some (conditionBranchAssign
                   (getAslStateOutput (stringConcat h l r).1) (heapVar (h + 2)))]).getD
                (.leaf passDeferNoop)),
             ("false", (joinSubStates
                [resultsGraph (numericAdd (h + 1) l r).1,
                 some (conditionBranchAssign
                   (getAslStateOutput (numericAdd (h + 1) l r).1) (heapVar (h + 2)))]).getD
                (.leaf passDeferNoop))])
          (.jsonPathOut (heapVar (h + 2))), h + 3)) := by
  refine ⟨?_, ?_, ?_, ?_⟩
  · intro h lv lc rv rc
    cases lv <;> cases rv <;>
      simp [plus, stringConcat, numericAdd, isLiteralString, isLiteralJP]
  · intro h l r hcond
    simp [plus, hcond]
  · intro h l r hstr hlit
    simp [plus, hstr, hlit]
  · intro h l r hstr hlit
    cases l with
    | jp lp =>
      cases r with
      | jp rp =>
        simp [plus, hstr, hlit, stringConcat, numericAdd, conditionState]
      | lit rv rc =>
        cases rv <;> simp_all [plus, isLiteralString, isLiteralJP, stringConcat,
          numericAdd, conditionState]
    | lit lv lc =>
      cases r with
      | jp rp =>
        cases lv <;> simp_all [plus, isLiteralString, isLiteralJP, stringConcat,
          numericAdd, conditionState]
      | lit rv rc =>
        simp [isLiteralJP] at hlit

/-- Witness for C2: `1 + 2` folds to the literal `3`; `"a" + $.x` is a
string concatenation; `true + 2` folds through the numeric add to `3`; and
`$.x + 1` produces the dispatching `Choice`. -/
theorem plus_lowering_witness :
    plus 0 (.lit (.num 1) false) (.lit (.num 2) false) =
      (.outOnly (.literalOut (.num 3) false), 1) ∧
    plus 0 (.lit (.str "a") false) (.jp "$.x") =
      stringConcat 0 (.lit (.str "a") false) (.jp "$.x") ∧
    plus 0 (.lit (.bool true) false) (.lit (.num 2) false) =
      (.outOnly (.literalOut (.num 3) false), 1) ∧
    plus 0 (.jp "$.x") (.lit (.num 1) false) =
      (.withStates
        (.sub "default"
          [("default", .leaf
              { stateType := "Choice",
                choices :=
                  [(ASL.or [plusOperandCond (.jp "$.x"),
                            plusOperandCond (.lit (.num 1) false)], .label "true")],
                choiceDefault := some (.label "false") }),
           ("true", (joinSubStates
              [resultsGraph (stringConcat 0 (.jp "$.x") (.lit (.num 1) false)).1,
               some (conditionBranchAssign
                 (getAslStateOutput (stringConcat 0 (.jp "$.x") (.lit (.num 1) false)).1)
                 (heapVar 2))]).getD (.leaf passDeferNoop)),
           ("false", (joinSubStates
              [resultsGraph (numericAdd 1 (.jp "$.x") (.lit (.num 1) false)).1,
               some (conditionBranchAssign
                 (getAslStateOutput (numericAdd 1 (.jp "$.x") (.lit (.num 1) false)).1)
                 (heapVar 2))]).getD (.leaf passDeferNoop))])
        (.jsonPathOut (heapVar 2)), 3) := by
  refine ⟨?_, ?_, ?_, ?_⟩
  · have := plus_lowering.1 0 (.num 1) false (.num 2) false
    simpa [isLiteralString, jsAddVal, jsToNumber] using this
  · exact plus_lowering.2.1 0 (.lit (.str "a") false) (.jp "$.x") rfl
  · have := plus_lowering.2.2.1 0 (.lit (.bool true) false) (.lit (.num 2) false) rfl rfl
    simp only [this]
    simp [numericAdd, jsAddVal, jsToNumber, heapVar]
  · exact plus_lowering.2.2.2 0 (.jp "$.x") (.lit (.num 1) false) rfl rfl

/-- **C6.** Unary `-`: the operand is first coerced to a number with `NaN`
represented as `null` and negation propagating `null` unchanged; a literal
number is negated at compile time; and a json-path number is negated at
runtime by a `Choice` that routes `null` to a `NaN` branch, a negative value
through `States.Format`/`States.StringSplit` on `"-"`/`States.StringToJson`
(taking the numeric tail), and a non-negative value through
`States.StringToJson(States.Format("-{}", v))`, writing the result to the
`num` field of a fresh heap slot. -/
theorem negate_lowering :
    (∀ h : Nat, negateJsonPathOrLiteralValue h .litNull =
      (.outOnly (.literalOut .null false), h)) ∧
    (∀ (h : Nat) (n : Int), negateJsonPathOrLiteralValue h (.litNum n) =
      (.outOnly (.literalOut (.num (-n)) false), h)) ∧
    (∀ (h : Nat) (v : JsonVal) (k : Int), jsToNumber v = some k →
      negateExprLit h v = (.outOnly (.literalOut (.num (-k)) false), h)) ∧
    (∀ (h : Nat) (v : JsonVal), jsToNumber v = none →
      negateExprLit h v = (.outOnly (.literalOut .null false), h)) ∧
    (∀ (h : Nat) (p : String), ∃ g,
      negateJsonPathOrLiteralValue h (.path p) =
        (.withStates g (.jsonPathOut (heapVar h ++ ".num")), h + 1) ∧
      lookupState g "check" = some (.leaf
        { stateType := "Choice",
          choices :=
            [(ASL.isNull p, .label "NaN"),
             (ASL.numericLessThan p 0, .label "negative")],
          choiceDefault := some (.label "positive") }) ∧
      lookupState g "NaN" = some (.leaf
        (assignValueSimple (.jp contextNull) (heapVar h ++ ".num"))) ∧
      lookupState g "negative" = some (.sub "s0"
        [("s0", .leaf (assignJsonPathOrIntrinsicG
            (.inl (intrinsicStringSplit
              (.argFn (intrinsicFormat "{}" [.argPath p]))
              (.argLit (.str "-"))))
            (heapVar h) "num" (.label "s1"))),
         ("s1", .leaf (assignJsonPathOrIntrinsicG
            (.inl (intrinsicStringToJson
              (.argFn (intrinsicArrayGetItem
                (.argPath (heapVar h ++ ".num")) (.argLit (.num 0))))))
            (heapVar h) "num"))]) ∧
      lookupState g "positive" = some (.leaf (assignJsonPathOrIntrinsicG
        (.inl (intrinsicStringToJson
          (.argFn (intrinsicFormat "-{}" [.argPath p]))))
        (heapVar h) "num"))) := by
  refine ⟨fun h => rfl, fun h n => rfl, ?_, ?_, ?_⟩
  · intro h v k hk
    cases v <;> simp_all [negateExprLit, evalToNumberLit, jsToNumber,
      negateJsonPathOrLiteralValue]
  · intro h v hk
    cases v <;> simp_all [negateExprLit, evalToNumberLit, jsToNumber,
      negateJsonPathOrLiteralValue]
  · intro h p
    refine ⟨_, rfl, ?_, ?_, ?_, ?_⟩ <;> rfl

/-- Witness for C6: `Number({})` is `NaN`/`null` and negation keeps it
`null`; the literal `5` negates to `-5`. -/
theorem negate_lowering_witness :
    negateExprLit 0 (.obj []) = (.outOnly (.literalOut .null false), 0) ∧
    negateExprLit 0 (.num 5) = (.outOnly (.literalOut (.num (-5)) false), 0) :=
  ⟨negate_lowering.2.2.2.1 0 (.obj []) rfl,
   negate_lowering.2.2.1 0 (.num 5) 5 rfl⟩

/-- Witness for C10: `x !== 5` and a boolean `<` comparison both compile to
the trivially-false predicate, which is false when the execution id holds the
string `"id"`. -/
theorem unmapped_comparisons_false_witness :
    ASL.compareValueOfType "$.x" "!==" (.pnum 5) = ASL.falseCondition ∧
    ASL.comparePathOfType "$.x" "<" "$.y" "boolean" = ASL.falseCondition ∧
    evalCond (fun p => if p = "$$.Execution.Id" then some (JsonVal.str "id") else none)
      ASL.falseCondition = false :=
  ⟨unmapped_comparisons_false.1 "$.x" "!==" (.pnum 5) (Or.inr (Or.inl rfl)),
   unmapped_comparisons_false.2.1 "$.x" "<" "$.y" "boolean"
     (Or.inr (Or.inr ⟨Or.inl rfl, rfl⟩)),
   unmapped_comparisons_false.2.2
     (fun p => if p = "$$.Execution.Id" then some (JsonVal.str "id") else none)
     "id" rfl⟩

/-- **C1.** Error routing for `throw`: with no enclosing catch clause or
finally block the lowering emits a terminal `Fail` carrying the resolved
error name and the JSON-stringified cause; with the nearest handler inside
the same closure (no enclosing closure, or the handler strictly nearer than
it) it emits a `Pass` whose `Result` is the cause and whose `Next` is the
reserved `__catch` label, with `ResultPath` `$.<generated-name>` when the
catch declares a variable and `null` otherwise; and with a `Map`/`Parallel`
closure boundary (a closure that is not an inline array-method argument)
strictly between the throw and the handler it emits a terminal `Fail` even
though a handler exists. -/
theorem throw_routing :
    (∀ (e : String) (c : JsonVal) (g : String) (anc : List Ancestor),
      findFirstWith isHandler anc = none →
      lowerThrowStmt e c g anc =
        { stateType := "Fail", errorName := some e,
          causeStr := some (jsonStringify c) }) ∧
    (∀ (e : String) (c : JsonVal) (g : String) (anc : List Ancestor)
        (hi : Nat) (hasVar : Bool),
      findFirstWith isHandler anc = some (hi, .catchClause hasVar) →
      (findFirstWith isClosure anc = none ∨
        ∃ ci cl, findFirstWith isClosure anc = some (ci, cl) ∧ hi < ci) →
      lowerThrowStmt e c g anc =
        { stateType := "Pass", result := some c,
          next := some (.label "__catch"),
          resultPath := some (if hasVar then some ("$." ++ g) else none) }) ∧
    (∀ (e : String) (c : JsonVal) (g : String) (anc : List Ancestor)
        (hi ci : Nat) (handler : Ancestor),
      findFirstWith isHandler anc = some (hi, handler) →
      findFirstWith isClosure anc = some (ci, .closure false) →
      ci < hi →
      lowerThrowStmt e c g anc =
        { stateType := "Fail", errorName := some e,
          causeStr := some (jsonStringify c) }) := by
  refine ⟨?_, ?_, ?_⟩
  · intro e c g anc hH
    simp [lowerThrowStmt, aslThrow, hH]
  · intro e c g anc hi hasVar hH hC
    rcases hC with hC | ⟨ci, cl, hC, hlt⟩
    · cases hasVar <;>
        simp [lowerThrowStmt, aslThrow, hH, hC, throwResultPath]
    · cases hasVar <;>
        simp [lowerThrowStmt, aslThrow, hH, hC, throwResultPath, hlt]
  · intro e c g anc hi ci handler hH hC hlt
    have hnlt : ¬ hi < ci := by omega
    simp [lowerThrowStmt, aslThrow, hH, hC, closureInlineFlag, hnlt]

/-- Witness for C1: a throw with no handler fails; a throw whose catch clause
(with a variable) is nearer than the enclosing closure routes to `__catch`
with `ResultPath` `$.gen`; a throw behind a closure boundary fails despite
the outer handler. -/
theorem throw_routing_witness :
    lowerThrowStmt "Error" (.obj [("message", .str "boom")]) "gen" [.other] =
      { stateType := "Fail", errorName := some "Error",
        causeStr := some (jsonStringify (.obj [("message", .str "boom")])) } ∧
    lowerThrowStmt "Error" (.obj [("message", .str "boom")]) "gen"
        [.catchClause true, .closure false] =
      { stateType := "Pass", result := some (.obj [("message", .str "boom")]),
        next := some (.label "__catch"), resultPath := some (some "$.gen") } ∧
    lowerThrowStmt "Error" (.obj [("message", .str "boom")]) "gen"
        [.closure false, .catchClause true] =
      { stateType := "Fail", errorName := some "Error",
        causeStr := some (jsonStringify (.obj [("message", .str "boom")])) } :=
  ⟨throw_routing.1 "Error" (.obj [("message", .str "boom")]) "gen" [.other] rfl,
   by
     have := throw_routing.2.1 "Error" (.obj [("message", .str "boom")]) "gen"
       [.catchClause true, .closure false] 0 true rfl
       (Or.inr ⟨1, .closure false, rfl, by omega⟩)
     simpa using this,
   throw_routing.2.2 "Error" (.obj [("message", .str "boom")]) "gen"
     [.closure false, .catchClause true] 1 0 (.catchClause true) rfl rfl
     (by omega)⟩

/-- **C5.** The catch pre-amble: exactly when the try block contains a task
state and the catch clause declares a variable, the catch entry is preceded
by two states — a `Pass` assigning
`States.StringToJson($.<name>.Cause)` into `$.<name>.0_ParsedError` and a
`Pass` overwriting `$.<name>` with the parsed value — and in every other
case no pre-amble exists and the catch body receives the routed value
unchanged. -/
theorem try_catch_preamble :
    (∀ name : String, tryFlowStates true true name = some (.sub "s0"
      [("s0", .leaf (assignJsonPathOrIntrinsicG
          (.inl (intrinsicStringToJson (.argPath ("$." ++ name ++ ".Cause"))))
          ("$." ++ name) "0_ParsedError" (.label "s1"))),
       ("s1", .leaf
          { stateType := "Pass",
            inputPath := some ("$." ++ name ++ ".0_ParsedError"),
            resultPath := some (some ("$." ++ name)),
            next := some .deferNext })])) ∧
    (∀ (hasTask hasVar : Bool) (name : String), (hasTask && hasVar) = false →
      tryFlowStates hasTask hasVar name = none) ∧
    (∀ (name : String) (body : StateGraph),
      catchClauseStates true true name (some body) = .sub "s0"
        [("s0", updateDeferredNextStates "s1"
            ((tryFlowStates true true name).getD (.leaf passDeferNoop))),
         ("s1", body)]) ∧
    (∀ (hasTask hasVar : Bool) (name : String) (body : StateGraph),
      (hasTask && hasVar) = false →
      catchClauseStates hasTask hasVar name (some body) = body) := by
  refine ⟨fun name => rfl, ?_, fun name body => rfl, ?_⟩
  · intro hasTask hasVar name hcond
    simp [tryFlowStates, hcond]
  · intro hasTask hasVar name body hcond
    simp [catchClauseStates, tryFlowStates, hcond, joinSubStates]

/-- Witness for C5: no task in the try block, or no catch variable, means no
pre-amble and an unchanged catch body. -/
theorem try_catch_preamble_witness :
    tryFlowStates false true "err" = none ∧
    tryFlowStates true false "err" = none ∧
    catchClauseStates true false "err" (some (.leaf passDeferNoop)) =
      .leaf passDeferNoop :=
  ⟨try_catch_preamble.2.1 false true "err" rfl,
   try_catch_preamble.2.1 true false "err" rfl,
   try_catch_preamble.2.2.2 true false "err" (.leaf passDeferNoop) rfl⟩

/-- Counterexample for C3 as stated: the predicate `x => x === "a"` compiles
to the JSON-Path filter `$.xs[?(@=='a')]` — with no spaces around the
operator — which differs from the `$.xs[?(@ == 'a')]` the claim asserts. -/
theorem filter_example_counterexample :
    filterToJsonPath "$.xs"
      ⟨[.ret (some (.binary "===" (.ident (.bound (.paramDecl true)))
        (.lit (.str "a"))))]⟩ = some "$.xs[?(@==\x27a\x27)]" ∧
    ("$.xs[?(@==\x27a\x27)]" : String) ≠ "$.xs[?(@ == \x27a\x27)]" := by
  exact ⟨rfl, by decide⟩

/-- **C3 (amended).** `filter` with a single-statement return of a comparison
between renderable operands (references to the element parameter, its
destructured/property accesses, and literal constants) bypasses the
iteration skeleton and produces the bare JSON Path
`<array>[?(<expression>)]`, rendering `===` as `==` and `!==` as `!=` with no
surrounding spaces; in particular `xs.filter(x => x === "a")` yields
`$.xs[?(@=='a')]`; any predicate shape outside this form falls back to the
iteration-skeleton lowering. -/
theorem filter_to_jsonpath :
    (∀ (arr op : String) (l r : FExpr) (a b : String),
      toFilterCondition l = some a → toFilterCondition r = some b →
      filterToJsonPath arr ⟨[.ret (some (.binary op l r))]⟩ =
        some (arr ++ "[?(" ++ a ++ renderFilterOp op ++ b ++ ")]")) ∧
    renderFilterOp "===" = "==" ∧
    renderFilterOp "!==" = "!=" ∧
    toFilterCondition (.ident (.bound (.paramDecl true))) = some "@" ∧
    (∀ (e : FExpr) (n v : String), toFilterCondition e = some v →
      toFilterCondition (.propAccess e n) = some (v ++ "." ++ n)) ∧
    (∀ s : String, toFilterCondition (.lit (.str s)) =
      some ("\x27" ++ escapeSingleQuotes s ++ "\x27")) ∧
    filterToStateOutput "$.xs"
      ⟨[.ret (some (.binary "===" (.ident (.bound (.paramDecl true)))
        (.lit (.str "a"))))]⟩ = .jsonPathFilter "$.xs[?(@==\x27a\x27)]" ∧
    (∀ arr : String, filterToStateOutput arr ⟨[]⟩ = .skeleton) ∧
    (∀ (arr : String) (s₁ s₂ : PredicateStmt) (rest : List PredicateStmt),
      filterToStateOutput arr ⟨s₁ :: s₂ :: rest⟩ = .skeleton) ∧
    (∀ arr : String, filterToStateOutput arr ⟨[.nonRet]⟩ = .skeleton) ∧
    (∀ (arr : String) (e : FExpr), toFilterCondition e = none →
      filterToStateOutput arr ⟨[.ret (some e)]⟩ = .skeleton) := by
  refine ⟨?_, rfl, rfl, rfl, ?_, fun s => rfl, rfl, fun arr => rfl, ?_, fun arr => rfl, ?_⟩
  · intro arr op l r a b ha hb
    simp [filterToJsonPath, toFilterCondition, ha, hb, String.append_assoc]
  · intro e n v hv
    simp [toFilterCondition, hv]
  · intro arr s₁ s₂ rest
    simp [filterToStateOutput, filterToJsonPath]
  · intro arr e he
    simp [filterToStateOutput, filterToJsonPath, he]

/-- Witness for C3 (amended): the concrete predicate `x => x === "a"`
discharges the comparison hypotheses, and the unresolvable predicate
`x => y === "a"` (an identifier with no declaration) falls back to the
skeleton. -/
theorem filter_to_jsonpath_witness :
    filterToJsonPath "$.xs"
      ⟨[.ret (some (.binary "===" (.ident (.bound (.paramDecl true)))
        (.lit (.str "a"))))]⟩ =
      some ("$.xs" ++ "[?(" ++ "@" ++ renderFilterOp "===" ++
        ("\x27" ++ escapeSingleQuotes "a" ++ "\x27") ++ ")]") ∧
    toFilterCondition (.propAccess (.ident (.bound (.paramDecl true))) "name") =
      some ("@" ++ "." ++ "name") ∧
    filterToStateOutput "$.xs"
      ⟨[.ret (some (.binary "===" (.ident .unresolved) (.lit (.str "a"))))]⟩ =
      .skeleton :=
  ⟨filter_to_jsonpath.1 "$.xs" "===" (.ident (.bound (.paramDecl true)))
     (.lit (.str "a")) "@" ("\x27" ++ escapeSingleQuotes "a" ++ "\x27") rfl rfl,
   filter_to_jsonpath.2.2.2.2.1 (.ident (.bound (.paramDecl true))) "name" "@" rfl,
   filter_to_jsonpath.2.2.2.2.2.2.2.2.2.2 "$.xs"
     (.binary "===" (.ident .unresolved) (.lit (.str "a"))) rfl⟩

/-- Counterexample for C9 as stated: `break` outside any loop is rejected
with the plain JavaScript `Error("Stack Underflow")`, which carries no stable
error code. -/
theorem stack_underflow_no_code :
    lowerBreakContinueStmt true false =
      Except.error (CompileError.plain "Stack Underflow") ∧
    hasStableCode (CompileError.plain "Stack Underflow") = false :=
  ⟨rfl, rfl⟩

/-- **C9 (amended).** Compile-time rejections of unsupported syntax raised as
`SynthError`s carry a stable error code (`with`, `switch`, `for-await`, rest
parameters all carry `Unsupported_Feature`), but not every rejection does:
`break`/`continue` outside a loop throws the plain
`Error("Stack Underflow")`, and an unrecognized call expression throws a
plain `Error`, both without a stable code. -/
theorem rejection_error_codes :
    lowerBreakContinueStmt true false =
      Except.error (CompileError.plain "Stack Underflow") ∧
    lowerBreakContinueStmt false false =
      Except.error (CompileError.plain "Stack Underflow") ∧
    hasStableCode (CompileError.plain "Stack Underflow") = false ∧
    (∀ s : String, hasStableCode (unsupportedCallRejection s) = false) ∧
    withStmtRejection =
      CompileError.synth .Unsupported_Feature
        "with statements are not yet supported by ASL" ∧
    hasStableCode withStmtRejection = true ∧
    hasStableCode switchStmtRejection = true ∧
    hasStableCode forAwaitRejection = true ∧
    hasStableCode restParameterRejection = true :=
  ⟨rfl, rfl, rfl, fun _ => rfl, rfl, rfl, rfl, rfl, rfl⟩
